import Mathlib

/-
Shallow embedding of the e2e-test tool (tools/e2e-test/e2e_test):
transport/retry_policy.py, transport/http_client.py, discovery/udp_listener.py,
validators/assertion_engine.py and runner/executor.py, together with theorems
settling the behavioural claims about them.

Real time (seconds) is modelled by rationals; network interactions are
modelled by environments that fix, per call index, what the remote side
answers and how long the call takes.
-/

namespace E2E

/-! ## transport/retry_policy.py -/

/-- Configurable retry policy with exponential backoff
(class RetryPolicy in retry_policy.py). Delays are rationals standing for
the float seconds of the source. -/
structure RetryPolicy where
  max_retries : Nat := 3
  initial_delay : ℚ := 1
  backoff_factor : ℚ := 2
  max_delay : ℚ := 30
deriving DecidableEq

/-- RetryPolicy.get_delay: delay = initial_delay * backoff_factor ** attempt,
clamped to max_delay. -/
def RetryPolicy.get_delay (p : RetryPolicy) (attempt : Nat) : ℚ :=
  min (p.initial_delay * p.backoff_factor ^ attempt) p.max_delay

/-- default_retry_policy(): 3 retries, 1s initial delay, 2x backoff, 30s max. -/
def default_retry_policy : RetryPolicy := {}

/-- aggressive_retry_policy(): 5 retries, 0.5s initial delay, 1.5x backoff, 10s max. -/
def aggressive_retry_policy : RetryPolicy :=
  { max_retries := 5, initial_delay := 1/2, backoff_factor := 3/2, max_delay := 10 }

/-- no_retry_policy(): fail immediately. -/
def no_retry_policy : RetryPolicy := { max_retries := 0 }

/-! ## transport/http_client.py : _request_with_retry

One HTTP attempt either yields a response with some status code, or fails
with a connection error or a timeout (the two `requests` exception classes
the source catches). -/

/-- Outcome of one underlying `self._session.request` call. -/
inductive ReqOutcome
  | resp (statusCode : Nat)
  | connError
  | reqTimeout
deriving DecidableEq

/-- Exceptions `_request_with_retry` can surface: `requests.HTTPError`
(from raise_for_status, carrying the status code), connection error,
timeout, or the defensive final RuntimeError. -/
inductive ReqError
  | httpError (statusCode : Nat)
  | connError
  | reqTimeout
  | noErrorCaptured
deriving DecidableEq

/-- `response.raise_for_status()` of the requests library: raises HTTPError
for status codes in [400, 600), otherwise returns the response. -/
def raiseForStatus (code : Nat) : Except ReqError Nat :=
  if 400 ≤ code ∧ code < 600 then .error (.httpError code) else .ok code

/-- Observable trace of one `_request_with_retry` call: the value returned
or exception raised, how many HTTP attempts were made, and the sequence of
back-off sleeps performed between attempts. -/
structure ReqTrace where
  result : Except ReqError Nat
  attempts : Nat
  sleeps : List ℚ

/-- The `for attempt in range(max_retries + 1)` loop of `_request_with_retry`.
`o i` is what the i-th HTTP attempt does; `fuel` is the number of loop
iterations left, `lastError` the `last_error` variable. Falling off the loop
re-raises `last_error` or the defensive RuntimeError. -/
def requestLoop (p : RetryPolicy) (o : Nat → ReqOutcome) :
    Nat → Nat → Option ReqError → ReqTrace
  | _, 0, lastError =>
      { result := .error (lastError.getD .noErrorCaptured), attempts := 0, sleeps := [] }
  | attempt, fuel + 1, lastError =>
      match o attempt with
      | .resp code =>
          if code < 500 then
            { result := raiseForStatus code, attempts := 1, sleeps := [] }
          else if attempt < p.max_retries then
            let t := requestLoop p o (attempt + 1) fuel lastError
            { t with attempts := t.attempts + 1, sleeps := p.get_delay attempt :: t.sleeps }
          else
            match raiseForStatus code with
            | .error e => { result := .error e, attempts := 1, sleeps := [] }
            | .ok _ =>
                let t := requestLoop p o (attempt + 1) fuel lastError
                { t with attempts := t.attempts + 1 }
      | .connError =>
          if attempt < p.max_retries then
            let t := requestLoop p o (attempt + 1) fuel (some .connError)
            { t with attempts := t.attempts + 1, sleeps := p.get_delay attempt :: t.sleeps }
          else
            { result := .error .connError, attempts := 1, sleeps := [] }
      | .reqTimeout =>
          if attempt < p.max_retries then
            let t := requestLoop p o (attempt + 1) fuel (some .reqTimeout)
            { t with attempts := t.attempts + 1, sleeps := p.get_delay attempt :: t.sleeps }
          else
            { result := .error .reqTimeout, attempts := 1, sleeps := [] }

/-- `E2EHttpClient._request_with_retry`: run the attempt loop starting at
attempt 0 with max_retries + 1 iterations available and no error recorded. -/
def request_with_retry (p : RetryPolicy) (o : Nat → ReqOutcome) : ReqTrace :=
  requestLoop p o 0 (p.max_retries + 1) none

/-- An attempt outcome that the loop retries: a 5xx-or-above response, a
connection error, or a timeout. -/
def retryable : ReqOutcome → Bool
  | .resp c => 500 ≤ c
  | .connError => true
  | .reqTimeout => true

/-- What the loop produces when an attempt outcome is final (status codes
below 600): sub-400 responses are returned, 4xx and 5xx raise HTTPError,
exhausted connection errors and timeouts re-raise. -/
def finalOutcome : ReqOutcome → Except ReqError Nat
  | .resp c => raiseForStatus c
  | .connError => .error .connError
  | .reqTimeout => .error .reqTimeout

/-! ## transport/http_client.py : data model and poll_until_complete -/

/-- dataclass TestStatus of http_client.py. -/
structure TestStatus where
  status : String
  progress : ℚ := 0
  current_step : Nat := 0
  total_steps : Nat := 0
deriving DecidableEq

/-- TestStatus.is_running. -/
def TestStatus.is_running (s : TestStatus) : Bool := s.status == "running"

/-- TestStatus.is_completed. -/
def TestStatus.is_completed (s : TestStatus) : Bool := s.status == "completed"

/-- TestStatus.is_failed. -/
def TestStatus.is_failed (s : TestStatus) : Bool := s.status == "failed"

/-- dataclass ScreenshotData of http_client.py. -/
structure ScreenshotData where
  name : String
  data : String
deriving DecidableEq

/-- dataclass LogEntry of http_client.py. -/
structure LogEntry where
  timestamp : String
  level : String
  message : String
deriving DecidableEq

/-- dataclass TestResult of http_client.py. -/
structure TestResult where
  status : String
  screenshots : List ScreenshotData := []
  logs : List LogEntry := []
  error : Option String := none
deriving DecidableEq

/-- Environment for one poll_until_complete run: `status i` is the
TestStatus the i-th get_status call reports, `statusTime i` the wall-clock
seconds that call (plus the on_progress callback) consumes, and `result`
the TestResult any get_result call returns. -/
structure PollEnv where
  status : Nat → TestStatus
  statusTime : Nat → ℚ
  result : TestResult

/-- How a poll_until_complete run ends: return the result, raise
RuntimeError (remote failure), raise TimeoutError, or run out of modelling
fuel. -/
inductive PollOutcome
  | success (r : TestResult)
  | remoteFailure (msg : String)
  | pollTimeout (timeout : ℚ)
  | fuelOut
deriving DecidableEq

/-- Observable trace of one poll_until_complete run: how it ended, how many
get_status and get_result calls were made, the wall-clock instants of the
get_status calls, and the clock when the run ended. -/
structure PollTrace where
  outcome : PollOutcome
  statusCalls : Nat
  resultCalls : Nat
  fetchClocks : List ℚ
  endClock : ℚ
deriving DecidableEq

/-- The Python truthiness idiom applied to result.error in
poll_until_complete: a missing or empty (falsy) error string becomes
"Unknown error". -/
def errText : Option String → String
  | none => "Unknown error"
  | some s => if s = "" then "Unknown error" else s

/-- The `while time.time() - start_time < timeout` loop of
poll_until_complete. `i` numbers the next get_status call, `clock` is the
current wall-clock time, `fuel` bounds the remaining iterations. On
`completed` the result is fetched once and returned; on `failed` the result
is fetched once and RuntimeError is raised with its error text; otherwise
the loop sleeps poll_interval and re-polls; when the deadline has passed it
raises TimeoutError. -/
def pollLoop (env : PollEnv) (timeout poll_interval start : ℚ) :
    Nat → ℚ → Nat → PollTrace
  | _, clock, 0 => { outcome := .fuelOut, statusCalls := 0, resultCalls := 0,
                     fetchClocks := [], endClock := clock }
  | i, clock, fuel + 1 =>
      if clock - start < timeout then
        let st := env.status i
        let c1 := clock + env.statusTime i
        if st.is_completed then
          { outcome := .success env.result, statusCalls := 1, resultCalls := 1,
            fetchClocks := [clock], endClock := c1 }
        else if st.is_failed then
          { outcome := .remoteFailure ("Test failed: " ++ errText env.result.error),
            statusCalls := 1, resultCalls := 1, fetchClocks := [clock], endClock := c1 }
        else
          let t := pollLoop env timeout poll_interval start (i + 1) (c1 + poll_interval) fuel
          { t with statusCalls := t.statusCalls + 1, fetchClocks := clock :: t.fetchClocks }
      else
        { outcome := .pollTimeout timeout, statusCalls := 0, resultCalls := 0,
          fetchClocks := [], endClock := clock }

/-- E2EHttpClient.poll_until_complete, starting the loop at the wall-clock
instant `start` taken as start_time. -/
def poll_until_complete (env : PollEnv) (timeout poll_interval start : ℚ)
    (fuel : Nat) : PollTrace :=
  pollLoop env timeout poll_interval start 0 start fuel

/-- Wall-clock seconds consumed by the first j loop iterations when polling
starts at call index i: each iteration spends the status-fetch time plus one
poll_interval sleep. -/
def pollElapsed (env : PollEnv) (poll_interval : ℚ) (i : Nat) : Nat → ℚ
  | 0 => 0
  | j + 1 => pollElapsed env poll_interval i j + env.statusTime (i + j) + poll_interval

/-! ## discovery/udp_listener.py -/

/-- A JSON value as produced by json.loads. Integers and booleans are kept
apart from other numbers because Python treats bool as a subclass of int. -/
inductive JValue
  | jnull
  | jbool (b : Bool)
  | jint (n : Int)
  | jnum (q : ℚ)
  | jstr (s : String)
  | jarr (xs : List JValue)
  | jobj (fields : List (String × JValue))

/-- Python dict.get on an association list (keys unique in a real dict, the
first binding wins here). -/
def dictGet {α : Type} : List (String × α) → String → Option α
  | [], _ => none
  | (k, v) :: rest, key => if k = key then some v else dictGet rest key

/-- Python truthiness of a JSON value (used for the app field check). -/
def jTruthy : JValue → Bool
  | .jnull => false
  | .jbool b => b
  | .jint n => n != 0
  | .jnum q => q != 0
  | .jstr s => s != ""
  | .jarr xs => !xs.isEmpty
  | .jobj fs => !fs.isEmpty

/-- Python isinstance(x, int) as a partial cast: true ints pass through and
bools count as 0 or 1; everything else is rejected. -/
def asPyInt : JValue → Option Int
  | .jint n => some n
  | .jbool b => some (if b then 1 else 0)
  | _ => none

/-- Python str() of a JSON value, needed because _parse_broadcast stores
str(app). Container and null renderings abstract the CPython repr
formatting; no claim depends on them. -/
def pyStr : JValue → String
  | .jnull => "None"
  | .jbool b => if b then "True" else "False"
  | .jint n => toString n
  | .jnum q => toString q
  | .jstr s => s
  | .jarr _ => "<list>"
  | .jobj _ => "<dict>"

/-- dataclass AppInfo of udp_listener.py. platform and version keep the raw
JSON values the datagram carried (the dataclass does not coerce them). -/
structure AppInfo where
  app : String
  host : String
  port : Int
  platform : Option JValue := none
  version : Option JValue := none
  discovered_at : ℚ := 0

/-- UDPListener._parse_broadcast. The datagram argument is the result of
json.loads on the received bytes, none when decoding failed. Non-object
payloads are dropped; a falsy app field or a port that is not an int drops
the datagram; otherwise an AppInfo is built with the sender address as
host. -/
def parseBroadcast (datagram : Option JValue) (host : String) : Option AppInfo :=
  match datagram with
  | none => none
  | some (.jobj fields) =>
      let app := dictGet fields "app"
      let port := dictGet fields "port"
      if (match app with | none => true | some v => !jTruthy v) then none
      else
        match (match port with | none => none | some v => asPyInt v) with
        | none => none
        | some n =>
            some { app := pyStr (app.getD .jnull), host := host, port := n,
                   platform := dictGet fields "platform",
                   version := dictGet fields "version" }
  | some _ => none

/-- One event observed by the listening socket: either a datagram arrives
(with its decoded JSON payload, none when malformed, and the sender host),
or the 1-second socket timeout slice elapses. -/
inductive SockEvent
  | datagram (payload : Option JValue) (sender : String)
  | sockTimeout

/-- Environment for one listen run: the sequence of socket events and the
wall-clock seconds each one takes to arrive. -/
structure ListenEnv where
  events : Nat → SockEvent
  eventTime : Nat → ℚ

/-- The app_filter guard of listen and listen_all, with Python truthiness:
a missing or empty filter accepts everything, otherwise exact equality. -/
def appFilterOk (flt : Option String) (app : String) : Bool :=
  match flt with
  | none => true
  | some f => if f = "" then true else app == f

/-- The platform_filter guard of listen: a missing or empty filter accepts
everything, otherwise the stored raw platform value must be exactly that
string. -/
def platformFilterOk (flt : Option String) (p : Option JValue) : Bool :=
  match flt with
  | none => true
  | some f =>
      if f = "" then true
      else match p with
        | some (.jstr s) => s == f
        | _ => false

/-- What one socket event contributes to listen: the parsed AppInfo when the
event is a well-formed datagram passing both filters, none otherwise
(socket timeout slice, malformed or incomplete datagram, filtered out). -/
def acceptsEvent (env : ListenEnv) (appFlt platFlt : Option String) (i : Nat) :
    Option AppInfo :=
  match env.events i with
  | .sockTimeout => none
  | .datagram payload sender =>
      match parseBroadcast payload sender with
      | none => none
      | some info =>
          if appFilterOk appFlt info.app && platformFilterOk platFlt info.platform
          then some info else none

/-- Wall-clock seconds consumed by j socket events starting at event index
i. -/
def listenElapsed (env : ListenEnv) (i : Nat) : Nat → ℚ
  | 0 => 0
  | j + 1 => listenElapsed env i j + env.eventTime (i + j)

/-- How a listen run ends: a matching app was found, TimeoutError was
raised after the budget elapsed, or the modelling fuel ran out. -/
inductive ListenOutcome
  | found (info : AppInfo)
  | timedOut (elapsed : ℚ)
  | fuelOut

/-- Observable trace of one listen run. -/
structure ListenTrace where
  outcome : ListenOutcome
  eventsSeen : Nat
  endClock : ℚ

/-- The `while time.time() - start_time < timeout` loop of UDPListener.listen:
each iteration waits for one socket event; events that contribute nothing
(acceptsEvent = none) continue the loop, the first accepted datagram
returns, and an expired budget raises TimeoutError. -/
def listenLoop (env : ListenEnv) (timeout : ℚ) (appFlt platFlt : Option String)
    (start : ℚ) : Nat → ℚ → Nat → ListenTrace
  | _, clock, 0 => { outcome := .fuelOut, eventsSeen := 0, endClock := clock }
  | i, clock, fuel + 1 =>
      if clock - start < timeout then
        let c1 := clock + env.eventTime i
        match acceptsEvent env appFlt platFlt i with
        | some info => { outcome := .found info, eventsSeen := 1, endClock := c1 }
        | none =>
            let t := listenLoop env timeout appFlt platFlt start (i + 1) c1 fuel
            { t with eventsSeen := t.eventsSeen + 1 }
      else
        { outcome := .timedOut (clock - start), eventsSeen := 0, endClock := clock }

/-- UDPListener.listen starting at wall-clock instant `start`. -/
def listen (env : ListenEnv) (timeout : ℚ) (appFlt platFlt : Option String)
    (start : ℚ) (fuel : Nat) : ListenTrace :=
  listenLoop env timeout appFlt platFlt start 0 start fuel

/-- What one socket event contributes to listen_all (which has no platform
filter). -/
def acceptsEventAll (env : ListenEnv) (appFlt : Option String) (i : Nat) :
    Option AppInfo :=
  match env.events i with
  | .sockTimeout => none
  | .datagram payload sender =>
      match parseBroadcast payload sender with
      | none => none
      | some info => if appFilterOk appFlt info.app then some info else none

/-- The host:port deduplication key of listen_all. -/
def hostPortKey (info : AppInfo) : String := info.host ++ ":" ++ toString info.port

/-- Observable trace of one listen_all run: the discovered apps in
first-seen order, the events consumed, the final clock, and whether the
run finished on its own clock (rather than exhausting modelling fuel). -/
structure ListenAllTrace where
  found : List AppInfo
  eventsSeen : Nat
  endClock : ℚ
  finished : Bool

/-- The collection loop of UDPListener.listen_all: every event within the
window is consumed, accepted datagrams are inserted into the discovered
dict keyed by host:port with the first sighting winning, and the loop only
ends when the clock budget is spent. -/
def listenAllLoop (env : ListenEnv) (timeout : ℚ) (appFlt : Option String)
    (start : ℚ) : Nat → ℚ → Nat → List AppInfo → ListenAllTrace
  | _, clock, 0, acc =>
      { found := acc, eventsSeen := 0, endClock := clock, finished := false }
  | i, clock, fuel + 1, acc =>
      if clock - start < timeout then
        let c1 := clock + env.eventTime i
        let acc' :=
          match acceptsEventAll env appFlt i with
          | none => acc
          | some info =>
              if acc.any (fun x => hostPortKey x == hostPortKey info) then acc
              else acc ++ [info]
        let t := listenAllLoop env timeout appFlt start (i + 1) c1 fuel acc'
        { t with eventsSeen := t.eventsSeen + 1 }
      else
        { found := acc, eventsSeen := 0, endClock := clock, finished := true }

/-- UDPListener.listen_all starting at wall-clock instant `start`. -/
def listen_all (env : ListenEnv) (timeout : ℚ) (appFlt : Option String)
    (start : ℚ) (fuel : Nat) : ListenAllTrace :=
  listenAllLoop env timeout appFlt start 0 start fuel []

/-! ## validators/assertion_engine.py -/

/-- dataclass Assertion of scenario/schema.py (the fields the engine
reads). -/
structure Assertion where
  type : String
  name : String
  description : Option String := none
  expected : Option String := none
deriving DecidableEq

/-- dataclass VLMValidationResult of validators/gemini_vlm.py. -/
structure VLMValidationResult where
  passed : Bool
  confidence : ℚ
  reason : String
  warning : Option String := none
deriving DecidableEq

/-- dataclass AssertionResult of assertion_engine.py. -/
structure AssertionResult where
  assertion : Assertion
  passed : Bool
  details : String
  vlm_result : Option VLMValidationResult := none
deriving DecidableEq

/-- dataclass AssertionReport of assertion_engine.py. -/
structure AssertionReport where
  results : List AssertionResult := []
deriving DecidableEq

/-- AssertionReport.all_passed: all(r.passed for r in results). -/
def AssertionReport.all_passed (r : AssertionReport) : Bool :=
  r.results.all (fun x => x.passed)

/-- AssertionReport.passed_count. -/
def AssertionReport.passed_count (r : AssertionReport) : Nat :=
  r.results.countP (fun x => x.passed)

/-- AssertionReport.failed_count. -/
def AssertionReport.failed_count (r : AssertionReport) : Nat :=
  r.results.countP (fun x => !x.passed)

/-- AssertionReport.total_count. -/
def AssertionReport.total_count (r : AssertionReport) : Nat := r.results.length

/-- Whether the character list p occurs at the start of s. -/
def leadsWith : List Char → List Char → Bool
  | [], _ => true
  | _ :: _, [] => false
  | a :: as, b :: bs => a == b && leadsWith as bs

/-- Whether the character list p occurs contiguously anywhere in s. -/
def hasRun (p : List Char) : List Char → Bool
  | [] => p.isEmpty
  | c :: rest => leadsWith p (c :: rest) || hasRun p rest

/-- The Python substring test (needle in hay) on strings. -/
def strIn (needle hay : String) : Bool := hasRun needle.toList hay.toList

/-- The partial-match fallback of _evaluate_screenshot: the first artifact,
in collection order, whose name contains the assertion name as a
substring. -/
def findBySubstr (name : String) : List (String × String) → Option String
  | [] => none
  | (k, v) :: rest => if strIn name k then some v else findBySubstr name rest

/-- Artifact lookup of _evaluate_screenshot: exact dict lookup first, then
first substring match in collection order. -/
def lookupArtifact (name : String) (shots : List (String × String)) : Option String :=
  match dictGet shots name with
  | some v => some v
  | none => findBySubstr name shots

/-- The expected description passed to the oracle:
assertion.description or assertion.name under Python truthiness. -/
def expectedOf (a : Assertion) : String :=
  match a.description with
  | none => a.name
  | some d => if d = "" then a.name else d

/-- A string wrapped in single-quote characters (code point 39), as the
f-string of the not-found message renders the assertion name. -/
def squote (s : String) : String :=
  String.singleton (Char.ofNat 39) ++ s ++ String.singleton (Char.ofNat 39)

/-- AssertionEngine._evaluate_screenshot. The oracle argument models the
optional gemini_validator: given the artifact data and the expected
description it returns the VLM verdict. -/
def evalScreenshot (oracle : Option (String → String → VLMValidationResult))
    (a : Assertion) (shots : List (String × String)) : AssertionResult :=
  match lookupArtifact a.name shots with
  | none =>
      { assertion := a, passed := false,
        details := "Screenshot " ++ squote a.name ++ " not found in results." }
  | some data =>
      match oracle with
      | none =>
          { assertion := a, passed := false,
            details := "No VLM validator configured. Cannot validate screenshots." }
      | some validate =>
          let r := validate data (expectedOf a)
          { assertion := a, passed := r.passed, details := r.reason,
            vlm_result := some r }

/-- The per-assertion dispatch in the body of AssertionEngine.evaluate. -/
def evalOne (oracle : Option (String → String → VLMValidationResult))
    (a : Assertion) (shots : List (String × String)) : AssertionResult :=
  if a.type = "screenshot" then evalScreenshot oracle a shots
  else { assertion := a, passed := false,
         details := "Unsupported assertion type: " ++ a.type }

/-- AssertionEngine.evaluate: fold over the declared assertions appending
one result each, exactly like the source loop mutating report.results. -/
def evaluate (oracle : Option (String → String → VLMValidationResult))
    (assertions : List Assertion) (shots : List (String × String)) :
    AssertionReport :=
  assertions.foldl
    (fun rep a => { rep with results := rep.results ++ [evalOne oracle a shots] })
    { results := [] }

/-! ## runner/executor.py -/

/-- dataclass TestSession of http_client.py. -/
structure TestSession where
  session_id : String
  status : String := "submitted"
deriving DecidableEq

/-- A Python exception reaching the except-chain of TestExecutor.execute,
classified by the except clauses of the source: TimeoutError,
ConnectionError, RuntimeError, and the catch-all (carrying the exception
class name). -/
inductive PyError
  | timeoutError (msg : String)
  | connectionError (msg : String)
  | runtimeError (msg : String)
  | otherError (tyName : String) (msg : String)
deriving DecidableEq

/-- The message each except clause of TestExecutor.execute stores on
result.error. -/
def mapExceptionMessage : PyError → String
  | .timeoutError m => "Timeout: " ++ m
  | .connectionError m => "Connection failed: " ++ m
  | .runtimeError m => m
  | .otherError t m => "Unexpected error: " ++ t ++ ": " ++ m

/-- dataclass ExecutionResult of executor.py (report_path and
screenshots_saved handling lives outside the claims and is kept at its
defaults). -/
structure ExecutionResult where
  scenario_name : String
  platform : String
  all_passed : Bool := false
  assertion_report : Option AssertionReport := none
  duration_ms : Nat := 0
  logs : List LogEntry := []
  screenshots_saved : List String := []
  error : Option String := none
  report_path : Option String := none

/-- Environment for one TestExecutor.execute run: what each fallible stage
of the try block does (succeed with a value or raise), and how many
milliseconds of wall clock each stage consumes. discover covers
_discover_app, postRun the scenario submission, poll the
poll_until_complete call, evalAssertions the assertion-engine stage. -/
structure RunEnv where
  discover : Except PyError AppInfo
  discoverTime : Nat
  postRun : Except PyError TestSession
  postRunTime : Nat
  poll : Except PyError TestResult
  pollTime : Nat
  evalAssertions : Except PyError AssertionReport
  evalTime : Nat

/-- TestExecutor.execute with start wall-clock t0 in milliseconds: run the
stages of the try block in order, stop at the first raising stage and store
its mapped message on result.error, and stamp duration_ms from t0 in the
finally block; returns the result together with the wall clock at the end
of the run. Log collection (step 5) is a pure list comprehension and
consumes no modelled stage of its own. -/
def execute (env : RunEnv) (name plat : String) (t0 : Nat) :
    ExecutionResult × Nat :=
  let r0 : ExecutionResult := { scenario_name := name, platform := plat }
  let finish := fun (r : ExecutionResult) (t : Nat) =>
    ({ r with duration_ms := t - t0 }, t)
  match env.discover with
  | .error e => finish { r0 with error := some (mapExceptionMessage e) }
      (t0 + env.discoverTime)
  | .ok _ =>
    let t1 := t0 + env.discoverTime
    match env.postRun with
    | .error e => finish { r0 with error := some (mapExceptionMessage e) }
        (t1 + env.postRunTime)
    | .ok _ =>
      let t2 := t1 + env.postRunTime
      match env.poll with
      | .error e => finish { r0 with error := some (mapExceptionMessage e) }
          (t2 + env.pollTime)
      | .ok httpResult =>
        let t3 := t2 + env.pollTime
        let r1 := { r0 with logs := httpResult.logs }
        match env.evalAssertions with
        | .error e => finish { r1 with error := some (mapExceptionMessage e) }
            (t3 + env.evalTime)
        | .ok report =>
            finish
              { r1 with
                assertion_report := some report
                all_passed := report.all_passed }
              (t3 + env.evalTime)

/-- The exception raised by the first failing stage of the try block, none
when every stage succeeds. -/
def firstStageError (env : RunEnv) : Option PyError :=
  match env.discover with
  | .error e => some e
  | .ok _ =>
    match env.postRun with
    | .error e => some e
    | .ok _ =>
      match env.poll with
      | .error e => some e
      | .ok _ =>
        match env.evalAssertions with
        | .error e => some e
        | .ok _ => none

/-! ## Theorems -/

/-- C5: for every valid retry policy (nonnegative initial delay, backoff
factor at least 1) and every retry attempt a, get_delay a equals
min(initial_delay * backoff_factor ^ a, max_delay) and is non-decreasing
in a. -/
theorem retry_delay_formula_and_monotone (p : RetryPolicy)
    (h1 : 0 ≤ p.initial_delay) (h2 : 1 ≤ p.backoff_factor) (a : Nat) :
    p.get_delay a = min (p.initial_delay * p.backoff_factor ^ a) p.max_delay
    ∧ p.get_delay a ≤ p.get_delay (a + 1) := by
  constructor
  · rfl
  · unfold RetryPolicy.get_delay
    exact min_le_min
      (mul_le_mul_of_nonneg_left (pow_le_pow_right₀ h2 (Nat.le_succ a)) h1) le_rfl

/-- Witness for C5 at the default policy and attempt 2. -/
theorem retry_delay_formula_and_monotone_witness :
    default_retry_policy.get_delay 2
      = min (default_retry_policy.initial_delay
              * default_retry_policy.backoff_factor ^ 2)
            default_retry_policy.max_delay
    ∧ default_retry_policy.get_delay 2 ≤ default_retry_policy.get_delay 3 :=
  retry_delay_formula_and_monotone default_retry_policy
    (by decide) (by decide) 2

/-- C7: AssertionReport.all_passed holds iff every contained result passed,
and is vacuously true on the empty result list. -/
theorem report_all_passed_iff (rep : AssertionReport) :
    (rep.all_passed = true ↔ ∀ r ∈ rep.results, r.passed = true)
    ∧ AssertionReport.all_passed { results := [] } = true := by
  refine ⟨?_, rfl⟩
  simp [AssertionReport.all_passed, List.all_eq_true]

/-- Witness for C7: the empty report passes. -/
theorem report_all_passed_iff_witness :
    AssertionReport.all_passed { results := [] } = true :=
  (report_all_passed_iff { results := [] }).2

/-- C10: a datagram whose app field is present but the empty string is
silently ignored by _parse_broadcast, exactly like one with the app field
missing, because the code tests Python truthiness of the field. -/
theorem parse_empty_app_ignored :
    parseBroadcast
        (some (.jobj [("app", .jstr ""), ("port", .jint 51321)])) "192.168.0.7"
      = none
    ∧ parseBroadcast (some (.jobj [("port", .jint 51321)])) "192.168.0.7" = none := by
  exact ⟨rfl, rfl⟩

/-- Range-shift identity used when peeling one back-off sleep from the
front of the sleep list. -/
theorem delay_cons_range (p : RetryPolicy) (attempt m : Nat) :
    p.get_delay attempt
        :: (List.range m).map (fun j => p.get_delay (attempt + 1 + j))
      = (List.range (m + 1)).map (fun j => p.get_delay (attempt + j)) := by
  rw [List.range_succ_eq_map, List.map_cons, List.map_map]
  congr 1
  apply List.map_congr_left
  intro a _
  show p.get_delay (attempt + 1 + a) = p.get_delay (attempt + (a + 1))
  have h : attempt + 1 + a = attempt + (a + 1) := by omega
  rw [h]

/-- Characterization of the attempt loop of _request_with_retry, for runs
whose responses carry real HTTP status codes (below 600): at least one and
at most max_retries + 1 attempts are made, every attempt before the last
had a retryable outcome, the sleeps are exactly the policy delays of the
performed retries, the result is determined by the last attempt outcome,
and a retryable last outcome means the attempt budget was exhausted. -/
theorem requestLoop_spec (p : RetryPolicy) (o : Nat → ReqOutcome)
    (hwf : ∀ i c, o i = .resp c → c < 600) :
    ∀ fuel attempt le, attempt + fuel = p.max_retries + 1 →
      attempt ≤ p.max_retries →
      1 ≤ (requestLoop p o attempt fuel le).attempts
      ∧ attempt + (requestLoop p o attempt fuel le).attempts ≤ p.max_retries + 1
      ∧ (∀ j, j + 1 < (requestLoop p o attempt fuel le).attempts →
          retryable (o (attempt + j)) = true)
      ∧ (requestLoop p o attempt fuel le).sleeps
          = (List.range ((requestLoop p o attempt fuel le).attempts - 1)).map
              (fun j => p.get_delay (attempt + j))
      ∧ (requestLoop p o attempt fuel le).result
          = finalOutcome (o (attempt + (requestLoop p o attempt fuel le).attempts - 1))
      ∧ (retryable (o (attempt + (requestLoop p o attempt fuel le).attempts - 1)) = true →
          attempt + (requestLoop p o attempt fuel le).attempts = p.max_retries + 1) := by
  intro fuel
  induction fuel with
  | zero => intro attempt le hsum hle; omega
  | succ fuel ih =>
    intro attempt le hsum hle
    match hout : o attempt with
    | .resp c =>
      by_cases hc : c < 500
      · have hre : retryable (o attempt) = false := by
          rw [hout]; simp [retryable]; omega
        simp only [requestLoop, hout, if_pos hc]
        refine ⟨by omega, by omega, ?_, by simp, ?_, ?_⟩
        · intro j hj; omega
        · simp [hout, finalOutcome]
        · intro hr
          rw [show attempt + 1 - 1 = attempt by omega] at hr
          rw [hr] at hre; cases hre
      · by_cases hlt : attempt < p.max_retries
        · have hrec := ih (attempt + 1) le (by omega) (by omega)
          simp only [requestLoop, hout, if_neg hc, if_pos hlt]
          obtain ⟨i1, i2, i3, i4, i5, i6⟩ := hrec
          refine ⟨by omega, by omega, ?_, ?_, ?_, ?_⟩
          · intro j hj
            match j with
            | 0 =>
              rw [Nat.add_zero, hout]
              simp [retryable]; omega
            | j + 1 =>
              have := i3 j (by omega)
              rw [show attempt + (j + 1) = attempt + 1 + j by omega]
              exact this
          · rw [i4]
            have hone := i1
            obtain ⟨m, hm⟩ := Nat.exists_eq_add_of_le hone
            rw [hm]
            rw [show 1 + m + 1 - 1 = m + 1 by omega,
                show 1 + m - 1 = m by omega]
            exact delay_cons_range p attempt m
          · rw [i5]
            congr 2
            omega
          · intro hr
            have : attempt + 1 + (requestLoop p o (attempt + 1) fuel le).attempts
                = p.max_retries + 1 := by
              apply i6
              rw [show attempt + 1 + (requestLoop p o (attempt + 1) fuel le).attempts - 1
                    = attempt + ((requestLoop p o (attempt + 1) fuel le).attempts + 1) - 1
                  by omega]
              exact hr
            omega
        · have heq : attempt = p.max_retries := by omega
          have hrs : raiseForStatus c = .error (.httpError c) := by
            unfold raiseForStatus
            rw [if_pos ⟨by omega, hwf attempt c hout⟩]
          simp only [requestLoop, hout, if_neg hc, if_neg hlt, hrs]
          refine ⟨by omega, by omega, ?_, by simp, ?_, ?_⟩
          · intro j hj; omega
          · simp [hout, finalOutcome, hrs]
          · intro _; omega
    | .connError =>
      by_cases hlt : attempt < p.max_retries
      · have hrec := ih (attempt + 1) (some .connError) (by omega) (by omega)
        simp only [requestLoop, hout, if_pos hlt]
        obtain ⟨i1, i2, i3, i4, i5, i6⟩ := hrec
        refine ⟨by omega, by omega, ?_, ?_, ?_, ?_⟩
        · intro j hj
          match j with
          | 0 => rw [Nat.add_zero, hout]; simp [retryable]
          | j + 1 =>
            have := i3 j (by omega)
            rw [show attempt + (j + 1) = attempt + 1 + j by omega]
            exact this
        · rw [i4]
          obtain ⟨m, hm⟩ := Nat.exists_eq_add_of_le i1
          rw [hm, show 1 + m + 1 - 1 = m + 1 by omega, show 1 + m - 1 = m by omega]
          exact delay_cons_range p attempt m
        · rw [i5]; congr 2; omega
        · intro hr
          have : attempt + 1
                + (requestLoop p o (attempt + 1) fuel (some .connError)).attempts
              = p.max_retries + 1 := by
            apply i6
            rw [show attempt + 1
                  + (requestLoop p o (attempt + 1) fuel (some .connError)).attempts - 1
                = attempt
                  + ((requestLoop p o (attempt + 1) fuel (some .connError)).attempts + 1)
                  - 1 by omega]
            exact hr
          omega
      · simp only [requestLoop, hout, if_neg hlt]
        refine ⟨by omega, by omega, ?_, by simp, ?_, ?_⟩
        · intro j hj; omega
        · simp [hout, finalOutcome]
        · intro _; omega
    | .reqTimeout =>
      by_cases hlt : attempt < p.max_retries
      · have hrec := ih (attempt + 1) (some .reqTimeout) (by omega) (by omega)
        simp only [requestLoop, hout, if_pos hlt]
        obtain ⟨i1, i2, i3, i4, i5, i6⟩ := hrec
        refine ⟨by omega, by omega, ?_, ?_, ?_, ?_⟩
        · intro j hj
          match j with
          | 0 => rw [Nat.add_zero, hout]; simp [retryable]
          | j + 1 =>
            have := i3 j (by omega)
            rw [show attempt + (j + 1) = attempt + 1 + j by omega]
            exact this
        · rw [i4]
          obtain ⟨m, hm⟩ := Nat.exists_eq_add_of_le i1
          rw [hm, show 1 + m + 1 - 1 = m + 1 by omega, show 1 + m - 1 = m by omega]
          exact delay_cons_range p attempt m
        · rw [i5]; congr 2; omega
        · intro hr
          have : attempt + 1
                + (requestLoop p o (attempt + 1) fuel (some .reqTimeout)).attempts
              = p.max_retries + 1 := by
            apply i6
            rw [show attempt + 1
                  + (requestLoop p o (attempt + 1) fuel (some .reqTimeout)).attempts - 1
                = attempt
                  + ((requestLoop p o (attempt + 1) fuel (some .reqTimeout)).attempts + 1)
                  - 1 by omega]
            exact hr
          omega
      · simp only [requestLoop, hout, if_neg hlt]
        refine ⟨by omega, by omega, ?_, by simp, ?_, ?_⟩
        · intro j hj; omega
        · simp [hout, finalOutcome]
        · intro _; omega

/-- C2 (amended): every _request_with_retry call with real HTTP status
codes (below 600) makes between 1 and max_retries + 1 attempts, retries
only 5xx responses, connection errors and timeouts (so any sub-500 response
ends the loop at its attempt: 2xx and 3xx are returned, 4xx raises
immediately as non-retryable), sleeps exactly get_delay(attempt) between
retries, surfaces the last attempt outcome as result, and only stops on a
retryable outcome when the retries are exhausted. -/
theorem request_retry_spec (p : RetryPolicy) (o : Nat → ReqOutcome)
    (hwf : ∀ i c, o i = .resp c → c < 600) :
    1 ≤ (request_with_retry p o).attempts
    ∧ (request_with_retry p o).attempts ≤ p.max_retries + 1
    ∧ (∀ j, j + 1 < (request_with_retry p o).attempts → retryable (o j) = true)
    ∧ (request_with_retry p o).sleeps
        = (List.range ((request_with_retry p o).attempts - 1)).map p.get_delay
    ∧ (request_with_retry p o).result
        = finalOutcome (o ((request_with_retry p o).attempts - 1))
    ∧ (retryable (o ((request_with_retry p o).attempts - 1)) = true →
        (request_with_retry p o).attempts = p.max_retries + 1) := by
  have h := requestLoop_spec p o hwf (p.max_retries + 1) 0 none (by omega) (by omega)
  simpa [request_with_retry] using h

/-- Counterexample to C2 as stated: a 304 response is neither 2xx nor 5xx,
yet _request_with_retry returns it as a success after a single attempt
instead of raising it as non-retryable (raise_for_status only raises for
status codes of at least 400). -/
theorem request_retry_c2_counterexample :
    (request_with_retry default_retry_policy (fun _ => ReqOutcome.resp 304)).result
      = Except.ok 304
    ∧ (request_with_retry default_retry_policy
        (fun _ => ReqOutcome.resp 304)).attempts = 1 :=
  ⟨rfl, rfl⟩

/-- Witness for C2 (amended) on a run whose every attempt hits a connection
error: the attempt bound holds and the last failure is surfaced. -/
theorem request_retry_spec_witness :
    (request_with_retry default_retry_policy (fun _ => ReqOutcome.connError)).attempts
      ≤ default_retry_policy.max_retries + 1
    ∧ (request_with_retry default_retry_policy (fun _ => ReqOutcome.connError)).result
      = finalOutcome ReqOutcome.connError := by
  have h := request_retry_spec default_retry_policy (fun _ => ReqOutcome.connError)
    (fun i c hc => by cases hc)
  exact ⟨h.2.1, h.2.2.2.2.1⟩

/-- A status reporting failed does not report completed. -/
theorem failed_not_completed (s : TestStatus) (h : s.is_failed = true) :
    s.is_completed = false := by
  unfold TestStatus.is_failed at h
  unfold TestStatus.is_completed
  have hs : s.status = "failed" := by simpa using h
  rw [hs]
  rfl

/-- Peeling the first loop iteration off the elapsed-time sum. -/
theorem pollElapsed_front (env : PollEnv) (itv : ℚ) (i : Nat) :
    ∀ j, pollElapsed env itv i (j + 1)
      = env.statusTime i + itv + pollElapsed env itv (i + 1) j := by
  intro j
  induction j with
  | zero => simp [pollElapsed]
  | succ j ih =>
    show pollElapsed env itv i (j + 1) + env.statusTime (i + (j + 1)) + itv = _
    rw [ih, show i + (j + 1) = i + 1 + j by omega]
    show _ = env.statusTime i + itv
      + (pollElapsed env itv (i + 1) j + env.statusTime (i + 1 + j) + itv)
    ring

/-- Characterization of the poll loop on a run whose polls stay within the
budget, report neither completed nor failed for N polls, and report failed
on poll N: the loop performs exactly N + 1 status fetches, one result
fetch, and raises RuntimeError with the result error text. -/
theorem pollLoop_fail (env : PollEnv) (timeout itv start : ℚ) :
    ∀ N i clock fuel, N < fuel →
      (∀ j, j < N → (env.status (i + j)).is_completed = false
          ∧ (env.status (i + j)).is_failed = false) →
      (env.status (i + N)).is_failed = true →
      (∀ j, j ≤ N → clock + pollElapsed env itv i j - start < timeout) →
      (pollLoop env timeout itv start i clock fuel).statusCalls = N + 1
      ∧ (pollLoop env timeout itv start i clock fuel).resultCalls = 1
      ∧ (pollLoop env timeout itv start i clock fuel).outcome
          = .remoteFailure ("Test failed: " ++ errText env.result.error) := by
  intro N
  induction N with
  | zero =>
    intro i clock fuel hfuel hrun hfail hbudget
    match fuel, hfuel with
    | f + 1, _ =>
      have hcond : clock - start < timeout := by
        have := hbudget 0 (by omega)
        simpa [pollElapsed] using this
      have hfail0 : (env.status i).is_failed = true := by simpa using hfail
      have hcomp : (env.status i).is_completed = false :=
        failed_not_completed _ hfail0
      simp [pollLoop, if_pos hcond, hcomp, hfail0]
  | succ n ih =>
    intro i clock fuel hfuel hrun hfail hbudget
    match fuel, hfuel with
    | f + 1, _ =>
      have hcond : clock - start < timeout := by
        have := hbudget 0 (by omega)
        simpa [pollElapsed] using this
      have hrun0 := hrun 0 (by omega)
      rw [Nat.add_zero] at hrun0
      have hrec := ih (i + 1) (clock + env.statusTime i + itv) f (by omega)
        (fun j hj => by
          have := hrun (j + 1) (by omega)
          rwa [show i + (j + 1) = i + 1 + j by omega] at this)
        (by rwa [show i + (n + 1) = i + 1 + n by omega] at hfail)
        (fun j hj => by
          have := hbudget (j + 1) (by omega)
          rw [pollElapsed_front] at this
          have harith : clock + (env.statusTime i + itv + pollElapsed env itv (i + 1) j)
              = clock + env.statusTime i + itv + pollElapsed env itv (i + 1) j := by ring
          rw [harith] at this
          exact this)
      refine ⟨?_, ?_, ?_⟩ <;>
        simp [pollLoop, hcond, hrun0.1, hrun0.2, hrec.1, hrec.2.1, hrec.2.2]

/-- C3: when a poll_until_complete run stays within its budget, reports
neither completed nor failed for the first N polls and reports failed on
poll N, the client performs exactly one further get_result call, performs
no status poll beyond poll N (N + 1 status fetches in total), and fails
with RuntimeError carrying the result error text, or Unknown error when the
result carries no (or an empty, hence falsy) error text. -/
theorem poll_failed_single_result (env : PollEnv) (N : Nat)
    (timeout itv start : ℚ) (fuel : Nat) (hfuel : N < fuel)
    (hrun : ∀ j, j < N → (env.status j).is_completed = false
        ∧ (env.status j).is_failed = false)
    (hfail : (env.status N).is_failed = true)
    (hbudget : ∀ j, j ≤ N → pollElapsed env itv 0 j < timeout) :
    (poll_until_complete env timeout itv start fuel).statusCalls = N + 1
    ∧ (poll_until_complete env timeout itv start fuel).resultCalls = 1
    ∧ (poll_until_complete env timeout itv start fuel).outcome
        = .remoteFailure ("Test failed: " ++ errText env.result.error) := by
  have h := pollLoop_fail env timeout itv start N 0 start fuel hfuel
    (fun j hj => by simpa using hrun j hj)
    (by simpa using hfail)
    (fun j hj => by
      have := hbudget j hj
      have harith : start + pollElapsed env itv 0 j - start
          = pollElapsed env itv 0 j := by ring
      rw [harith]
      exact this)
  exact h

/-- Witness for C3: poll 0 reports running, poll 1 reports failed, the
result carries the error text boom. -/
theorem poll_failed_single_result_witness :
    (poll_until_complete
        { status := fun i => if i = 0 then { status := "running" }
                             else { status := "failed" }
          statusTime := fun _ => 0
          result := { status := "failed", error := some "boom" } }
        10 2 0 5).statusCalls = 2
    ∧ (poll_until_complete
        { status := fun i => if i = 0 then { status := "running" }
                             else { status := "failed" }
          statusTime := fun _ => 0
          result := { status := "failed", error := some "boom" } }
        10 2 0 5).resultCalls = 1
    ∧ (poll_until_complete
        { status := fun i => if i = 0 then { status := "running" }
                             else { status := "failed" }
          statusTime := fun _ => 0
          result := { status := "failed", error := some "boom" } }
        10 2 0 5).outcome = .remoteFailure "Test failed: boom" := by
  have h := poll_failed_single_result
    { status := fun i => if i = 0 then { status := "running" }
                         else { status := "failed" }
      statusTime := fun _ => 0
      result := { status := "failed", error := some "boom" } }
    1 10 2 0 5 (by omega)
    (fun j hj => by
      have hj0 : j = 0 := by omega
      subst hj0
      exact ⟨rfl, rfl⟩)
    rfl
    (fun j hj => by
      interval_cases j <;> norm_num [pollElapsed])
  simpa [errText] using h

/-- Every status fetch of a poll loop run happens no earlier than the clock
the loop entered with, provided the interval and fetch times are
nonnegative. -/
theorem pollLoop_fetchClocks_ge (env : PollEnv) (timeout itv start : ℚ)
    (hitv : 0 ≤ itv) (hst : ∀ j, 0 ≤ env.statusTime j) :
    ∀ fuel i clock,
      ∀ x ∈ (pollLoop env timeout itv start i clock fuel).fetchClocks, clock ≤ x := by
  intro fuel
  induction fuel with
  | zero => intro i clock x hx; simp [pollLoop] at hx
  | succ fuel ih =>
    intro i clock x hx
    by_cases hcond : clock - start < timeout
    · by_cases hcomp : (env.status i).is_completed
      · simp [pollLoop, hcond, hcomp] at hx
        exact le_of_eq hx.symm
      · by_cases hfail : (env.status i).is_failed
        · simp [pollLoop, hcond, hcomp, hfail] at hx
          exact le_of_eq hx.symm
        · simp [pollLoop, hcond, hcomp, hfail] at hx
          rcases hx with hx | hx
          · exact le_of_eq hx.symm
          · have := ih (i + 1) (clock + env.statusTime i + itv) x hx
            have h0 := hst i
            linarith
    · simp [pollLoop, hcond] at hx

/-- Consecutive status fetches of a poll loop run are separated by at least
the poll interval. -/
theorem pollLoop_fetch_spacing (env : PollEnv) (timeout itv start : ℚ)
    (hitv : 0 ≤ itv) (hst : ∀ j, 0 ≤ env.statusTime j) :
    ∀ fuel i clock,
      List.Chain' (fun a b => a + itv ≤ b)
        (pollLoop env timeout itv start i clock fuel).fetchClocks := by
  intro fuel
  induction fuel with
  | zero => intro i clock; simp [pollLoop]
  | succ fuel ih =>
    intro i clock
    by_cases hcond : clock - start < timeout
    · by_cases hcomp : (env.status i).is_completed
      · simp [pollLoop, hcond, hcomp]
      · by_cases hfail : (env.status i).is_failed
        · simp [pollLoop, hcond, hcomp, hfail]
        · simp only [pollLoop, if_pos hcond]
          rw [if_neg (by simp [hcomp]), if_neg (by simp [hfail])]
          rw [List.chain'_cons']
          refine ⟨?_, ih (i + 1) (clock + env.statusTime i + itv)⟩
          intro b hb
          have hmem := List.mem_of_mem_head? hb
          have := pollLoop_fetchClocks_ge env timeout itv start hitv hst
            fuel (i + 1) (clock + env.statusTime i + itv) b hmem
          have h0 := hst i
          linarith
    · simp [pollLoop, hcond]

/-- C4: with poll_interval 2 and timeout 5 and a status that stays running
forever (instantaneous fetches), poll_until_complete raises PollTimeout at
clock 6, which is past the 5-unit budget but exceeds it by no more than one
poll interval; and in every run with nonnegative interval and fetch times,
consecutive status fetches are separated by at least poll_interval. -/
theorem poll_timeout_budget_and_spacing :
    ((poll_until_complete
        { status := fun _ => { status := "running" }
          statusTime := fun _ => 0
          result := { status := "running" } } 5 2 0 4).outcome
      = .pollTimeout 5
    ∧ (poll_until_complete
        { status := fun _ => { status := "running" }
          statusTime := fun _ => 0
          result := { status := "running" } } 5 2 0 4).endClock = 6
    ∧ (5 : ℚ) ≤ (poll_until_complete
        { status := fun _ => { status := "running" }
          statusTime := fun _ => 0
          result := { status := "running" } } 5 2 0 4).endClock - 0
    ∧ (poll_until_complete
        { status := fun _ => { status := "running" }
          statusTime := fun _ => 0
          result := { status := "running" } } 5 2 0 4).endClock - 0 ≤ 5 + 2)
    ∧ ∀ (env : PollEnv) (timeout itv start : ℚ) (i : Nat) (clock : ℚ) (fuel : Nat),
        0 ≤ itv → (∀ j, 0 ≤ env.statusTime j) →
        List.Chain' (fun a b => a + itv ≤ b)
          (pollLoop env timeout itv start i clock fuel).fetchClocks := by
  constructor
  · have hrun : (poll_until_complete
        { status := fun _ => { status := "running" }
          statusTime := fun _ => 0
          result := { status := "running" } } 5 2 0 4)
        = { outcome := .pollTimeout 5, statusCalls := 3, resultCalls := 0,
            fetchClocks := [0, 2, 4], endClock := 6 } := by
      show (pollLoop
        { status := fun _ => { status := "running" }
          statusTime := fun _ => 0
          result := { status := "running" } } 5 2 0 0 0 (0 + 1 + 1 + 1 + 1)) = _
      have hc : ¬ ("running" = "completed") := by decide
      have hf : ¬ ("running" = "failed") := by decide
      norm_num [pollLoop, TestStatus.is_completed, TestStatus.is_failed, hc, hf]
    refine ⟨?_, ?_, ?_, ?_⟩ <;> rw [hrun] <;> norm_num
  · intro env timeout itv start i clock fuel hitv hst
    exact pollLoop_fetch_spacing env timeout itv start hitv hst fuel i clock

/-- Witness for C4 on the same always-running run: its fetches are spaced
by at least the interval. -/
theorem poll_timeout_budget_and_spacing_witness :
    List.Chain' (fun a b => a + 2 ≤ b)
      (pollLoop
        { status := fun _ => { status := "running" }
          statusTime := fun _ => 0
          result := { status := "running" } } 5 2 0 0 0 4).fetchClocks :=
  poll_timeout_budget_and_spacing.2
    { status := fun _ => { status := "running" }
      statusTime := fun _ => 0
      result := { status := "running" } } 5 2 0 0 0 4
    (by norm_num) (fun j => le_refl 0)

/-- C1: TestExecutor.execute always returns a structured ExecutionResult:
duration_ms is stamped as the wall clock elapsed since the start of the
run no matter where the run stopped; when some stage (discovery, submit,
poll, assert) raises, the error field holds the non-null message the
matching except clause maps from the failure type and all_passed stays
false; and the error field is null exactly when no stage failed. -/
theorem execute_structured_result (env : RunEnv) (name plat : String) (t0 : Nat) :
    (execute env name plat t0).1.duration_ms = (execute env name plat t0).2 - t0
    ∧ (∀ e, firstStageError env = some e →
        (execute env name plat t0).1.error = some (mapExceptionMessage e)
        ∧ (execute env name plat t0).1.all_passed = false)
    ∧ (firstStageError env = none → (execute env name plat t0).1.error = none) := by
  rcases hd : env.discover with e1 | a <;>
    rcases hp : env.postRun with e2 | s <;>
      rcases hl : env.poll with e3 | r <;>
        rcases ha : env.evalAssertions with e4 | rep <;>
          simp [execute, firstStageError, hd, hp, hl, ha]

/-- Witness for C1 on a run whose discovery stage times out. -/
theorem execute_structured_result_witness :
    (execute
        { discover := .error (.timeoutError "No target app found after 30.0s")
          discoverTime := 30000
          postRun := .ok { session_id := "s1" }, postRunTime := 0
          poll := .ok { status := "completed" }, pollTime := 0
          evalAssertions := .ok { results := [] }, evalTime := 0 }
        "flow-editor" "unity" 1000).1.error
      = some "Timeout: No target app found after 30.0s"
    ∧ (execute
        { discover := .error (.timeoutError "No target app found after 30.0s")
          discoverTime := 30000
          postRun := .ok { session_id := "s1" }, postRunTime := 0
          poll := .ok { status := "completed" }, pollTime := 0
          evalAssertions := .ok { results := [] }, evalTime := 0 }
        "flow-editor" "unity" 1000).1.all_passed = false
    ∧ (execute
        { discover := .error (.timeoutError "No target app found after 30.0s")
          discoverTime := 30000
          postRun := .ok { session_id := "s1" }, postRunTime := 0
          poll := .ok { status := "completed" }, pollTime := 0
          evalAssertions := .ok { results := [] }, evalTime := 0 }
        "flow-editor" "unity" 1000).1.duration_ms
      = (execute
        { discover := .error (.timeoutError "No target app found after 30.0s")
          discoverTime := 30000
          postRun := .ok { session_id := "s1" }, postRunTime := 0
          poll := .ok { status := "completed" }, pollTime := 0
          evalAssertions := .ok { results := [] }, evalTime := 0 }
        "flow-editor" "unity" 1000).2 - 1000 := by
  have h := execute_structured_result
    { discover := .error (.timeoutError "No target app found after 30.0s")
      discoverTime := 30000
      postRun := .ok { session_id := "s1" }, postRunTime := 0
      poll := .ok { status := "completed" }, pollTime := 0
      evalAssertions := .ok { results := [] }, evalTime := 0 }
    "flow-editor" "unity" 1000
  exact ⟨(h.2.1 _ rfl).1, (h.2.1 _ rfl).2, h.1⟩

/-- The result-appending fold of AssertionEngine.evaluate is a map over the
declared assertions. -/
theorem evaluate_results_eq (oracle : Option (String → String → VLMValidationResult))
    (shots : List (String × String)) :
    ∀ (as : List Assertion) (acc : List AssertionResult),
      (as.foldl
          (fun rep a => { rep with results := rep.results ++ [evalOne oracle a shots] })
          { results := acc } : AssertionReport).results
        = acc ++ as.map (fun a => evalOne oracle a shots) := by
  intro as
  induction as with
  | nil => intro acc; simp
  | cons a as ih =>
    intro acc
    simp only [List.foldl_cons, List.map_cons]
    rw [ih]
    simp

/-- C6: AssertionEngine.evaluate yields exactly one AssertionResult per
declared assertion, in declaration order, each produced by the dispatch of
the source: non-screenshot types fail with an unsupported-type message; a
screenshot assertion whose artifact lookup (exact name first, then first
substring match in collection order) finds nothing fails with a not-found
message; a found artifact with no oracle configured fails with a
no-validator message; otherwise the oracle verdict on
expected := description or name is adopted. -/
theorem assertion_engine_eval_spec
    (oracle : Option (String → String → VLMValidationResult))
    (assertions : List Assertion) (shots : List (String × String)) :
    (evaluate oracle assertions shots).results
        = assertions.map (fun a => evalOne oracle a shots)
    ∧ (evaluate oracle assertions shots).results.length = assertions.length
    ∧ (∀ a : Assertion, a.type ≠ "screenshot" →
        evalOne oracle a shots
          = { assertion := a, passed := false,
              details := "Unsupported assertion type: " ++ a.type })
    ∧ (∀ a : Assertion, a.type = "screenshot" → lookupArtifact a.name shots = none →
        evalOne oracle a shots
          = { assertion := a, passed := false,
              details := "Screenshot " ++ squote a.name ++ " not found in results." })
    ∧ (∀ (a : Assertion) (v : String), a.type = "screenshot" →
        lookupArtifact a.name shots = some v → oracle = none →
        evalOne oracle a shots
          = { assertion := a, passed := false,
              details := "No VLM validator configured. Cannot validate screenshots." })
    ∧ (∀ (a : Assertion) (v : String) (f : String → String → VLMValidationResult),
        a.type = "screenshot" → lookupArtifact a.name shots = some v →
        oracle = some f →
        evalOne oracle a shots
          = { assertion := a, passed := (f v (expectedOf a)).passed,
              details := (f v (expectedOf a)).reason,
              vlm_result := some (f v (expectedOf a)) }) := by
  have hmap : (evaluate oracle assertions shots).results
      = assertions.map (fun a => evalOne oracle a shots) := by
    simpa using evaluate_results_eq oracle shots assertions []
  refine ⟨hmap, by simp [hmap], ?_, ?_, ?_, ?_⟩
  · intro a ha
    simp [evalOne, ha]
  · intro a ha hl
    simp [evalOne, ha, evalScreenshot, hl]
  · intro a v ha hl ho
    subst ho
    simp [evalOne, ha, evalScreenshot, hl]
  · intro a v f ha hl ho
    subst ho
    simp [evalOne, ha, evalScreenshot, hl]

/-- Witness for C6 on the spec example: one screenshot assertion named home
against one artifact named home_screen matches by containment and, with no
oracle configured, yields exactly one failing no-validator result. -/
theorem assertion_engine_eval_spec_witness :
    (evaluate none [{ type := "screenshot", name := "home" }]
        [("home_screen", "IMG")]).results
      = [evalOne none { type := "screenshot", name := "home" } [("home_screen", "IMG")]]
    ∧ evalOne none { type := "screenshot", name := "home" } [("home_screen", "IMG")]
      = { assertion := { type := "screenshot", name := "home" }, passed := false,
          details := "No VLM validator configured. Cannot validate screenshots." } := by
  have h := assertion_engine_eval_spec none
    [{ type := "screenshot", name := "home" }] [("home_screen", "IMG")]
  refine ⟨by simpa using h.1, ?_⟩
  exact h.2.2.2.2.1 { type := "screenshot", name := "home" } "IMG" rfl rfl rfl

/-- Peeling the first socket event off the elapsed-time sum. -/
theorem listenElapsed_front (env : ListenEnv) (i : Nat) :
    ∀ j, listenElapsed env i (j + 1)
      = env.eventTime i + listenElapsed env (i + 1) j := by
  intro j
  induction j with
  | zero => simp [listenElapsed]
  | succ j ih =>
    show listenElapsed env i (j + 1) + env.eventTime (i + (j + 1)) = _
    rw [ih, show i + (j + 1) = i + 1 + j by omega]
    show _ = env.eventTime i + (listenElapsed env (i + 1) j + env.eventTime (i + 1 + j))
    ring

/-- If no socket event ever contributes a matching app, the listen loop
never returns one. -/
theorem listenLoop_no_accept (env : ListenEnv) (timeout : ℚ)
    (aF pF : Option String) (start : ℚ)
    (hnone : ∀ j, acceptsEvent env aF pF j = none) :
    ∀ fuel i clock info,
      (listenLoop env timeout aF pF start i clock fuel).outcome ≠ .found info := by
  intro fuel
  induction fuel with
  | zero => intro i clock info h; simp [listenLoop] at h
  | succ fuel ih =>
    intro i clock info h
    by_cases hcond : clock - start < timeout
    · rw [listenLoop, if_pos hcond] at h
      rw [hnone i] at h
      exact ih (i + 1) (clock + env.eventTime i) info h
    · rw [listenLoop, if_neg hcond] at h
      simp at h

/-- Every app the listen loop returns was contributed by some accepted
socket event. -/
theorem listenLoop_found_from_accept (env : ListenEnv) (timeout : ℚ)
    (aF pF : Option String) (start : ℚ) :
    ∀ fuel i clock info,
      (listenLoop env timeout aF pF start i clock fuel).outcome = .found info →
      ∃ j, acceptsEvent env aF pF j = some info := by
  intro fuel
  induction fuel with
  | zero => intro i clock info h; simp [listenLoop] at h
  | succ fuel ih =>
    intro i clock info h
    by_cases hcond : clock - start < timeout
    · rw [listenLoop, if_pos hcond] at h
      rcases hacc : acceptsEvent env aF pF i with _ | info'
      · rw [hacc] at h
        exact ih (i + 1) (clock + env.eventTime i) info h
      · rw [hacc] at h
        simp at h
        exact ⟨i, by rw [hacc, h]⟩
    · rw [listenLoop, if_neg hcond] at h
      simp at h

/-- Events that contribute nothing never stop the listen loop: when the
first N events contribute nothing, event N is accepted, and the clock stays
within budget through event N, the loop returns that app. -/
theorem listenLoop_skips_bad (env : ListenEnv) (timeout : ℚ)
    (aF pF : Option String) (start : ℚ) (info : AppInfo) :
    ∀ N i clock fuel, N < fuel →
      (∀ j, j < N → acceptsEvent env aF pF (i + j) = none) →
      acceptsEvent env aF pF (i + N) = some info →
      (∀ j, j ≤ N → clock + listenElapsed env i j - start < timeout) →
      (listenLoop env timeout aF pF start i clock fuel).outcome = .found info := by
  intro N
  induction N with
  | zero =>
    intro i clock fuel hfuel hskip hacc hbudget
    match fuel, hfuel with
    | f + 1, _ =>
      have hcond : clock - start < timeout := by
        have := hbudget 0 (by omega)
        simpa [listenElapsed] using this
      rw [Nat.add_zero] at hacc
      rw [listenLoop, if_pos hcond, hacc]
  | succ n ih =>
    intro i clock fuel hfuel hskip hacc hbudget
    match fuel, hfuel with
    | f + 1, _ =>
      have hcond : clock - start < timeout := by
        have := hbudget 0 (by omega)
        simpa [listenElapsed] using this
      have hskip0 := hskip 0 (by omega)
      rw [Nat.add_zero] at hskip0
      rw [listenLoop, if_pos hcond, hskip0]
      exact ih (i + 1) (clock + env.eventTime i) f (by omega)
        (fun j hj => by
          have := hskip (j + 1) (by omega)
          rwa [show i + (j + 1) = i + 1 + j by omega] at this)
        (by rwa [show i + (n + 1) = i + 1 + n by omega] at hacc)
        (fun j hj => by
          have := hbudget (j + 1) (by omega)
          rw [listenElapsed_front] at this
          have harith : clock + (env.eventTime i + listenElapsed env (i + 1) j)
              = clock + env.eventTime i + listenElapsed env (i + 1) j := by ring
          rw [harith] at this
          exact this)

/-- If no socket event ever contributes a matching app, listen_all only
returns what it started with. -/
theorem listenAllLoop_no_accept (env : ListenEnv) (timeout : ℚ)
    (aF : Option String) (start : ℚ)
    (hnone : ∀ j, acceptsEventAll env aF j = none) :
    ∀ fuel i clock acc,
      (listenAllLoop env timeout aF start i clock fuel acc).found = acc := by
  intro fuel
  induction fuel with
  | zero => intro i clock acc; simp [listenAllLoop]
  | succ fuel ih =>
    intro i clock acc
    by_cases hcond : clock - start < timeout
    · rw [listenAllLoop, if_pos hcond]
      simp only [hnone i]
      exact ih (i + 1) (clock + env.eventTime i) acc
    · rw [listenAllLoop, if_neg hcond]

/-- Every app listen_all collects beyond its accumulator was contributed by
some accepted socket event. -/
theorem listenAllLoop_mem (env : ListenEnv) (timeout : ℚ)
    (aF : Option String) (start : ℚ) :
    ∀ fuel i clock acc info,
      info ∈ (listenAllLoop env timeout aF start i clock fuel acc).found →
      info ∈ acc ∨ ∃ j, acceptsEventAll env aF j = some info := by
  intro fuel
  induction fuel with
  | zero => intro i clock acc info h; simp [listenAllLoop] at h; exact Or.inl h
  | succ fuel ih =>
    intro i clock acc info h
    by_cases hcond : clock - start < timeout
    · rw [listenAllLoop, if_pos hcond] at h
      rcases hacc : acceptsEventAll env aF i with _ | x
      · rw [hacc] at h
        exact ih (i + 1) (clock + env.eventTime i) acc info h
      · rw [hacc] at h
        dsimp only at h
        by_cases hdup : acc.any (fun y => hostPortKey y == hostPortKey x)
        · rw [if_pos hdup] at h
          exact ih (i + 1) (clock + env.eventTime i) acc info h
        · rw [if_neg hdup] at h
          rcases ih (i + 1) (clock + env.eventTime i) (acc ++ [x]) info h with hm | hex
          · rcases List.mem_append.mp hm with hm | hm
            · exact Or.inl hm
            · simp at hm
              subst hm
              exact Or.inr ⟨i, hacc⟩
          · exact Or.inr hex
    · rw [listenAllLoop, if_neg hcond] at h
      exact Or.inl h

/-- C8: datagrams that contribute nothing (not valid JSON, not an object,
missing or falsy app, non-integer port, or filtered out) never produce a
match and never stop listening. For listen: a run with only such events
never returns an app, every returned app comes from a contributing event,
and bad events before a contributing one within the budget do not prevent
the match. For listen_all: every collected app comes from a contributing
event, and a run with only bad events collects nothing. -/
theorem listen_ignores_malformed (env : ListenEnv) (timeout : ℚ)
    (aF pF : Option String) (start : ℚ) (fuel : Nat) :
    ((∀ j, acceptsEvent env aF pF j = none) →
      ∀ info, (listen env timeout aF pF start fuel).outcome ≠ .found info)
    ∧ (∀ info, (listen env timeout aF pF start fuel).outcome = .found info →
        ∃ j, acceptsEvent env aF pF j = some info)
    ∧ (∀ N info, N < fuel →
        (∀ j, j < N → acceptsEvent env aF pF j = none) →
        acceptsEvent env aF pF N = some info →
        (∀ j, j ≤ N → listenElapsed env 0 j < timeout) →
        (listen env timeout aF pF start fuel).outcome = .found info)
    ∧ (∀ info, info ∈ (listen_all env timeout aF start fuel).found →
        ∃ j, acceptsEventAll env aF j = some info)
    ∧ ((∀ j, acceptsEventAll env aF j = none) →
        (listen_all env timeout aF start fuel).found = []) := by
  refine ⟨?_, ?_, ?_, ?_, ?_⟩
  · intro hnone info
    exact listenLoop_no_accept env timeout aF pF start hnone fuel 0 start info
  · intro info h
    exact listenLoop_found_from_accept env timeout aF pF start fuel 0 start info h
  · intro N info hfuel hskip hacc hbudget
    apply listenLoop_skips_bad env timeout aF pF start info N 0 start fuel hfuel
      (fun j hj => by simpa using hskip j hj)
      (by simpa using hacc)
      (fun j hj => by
        have := hbudget j hj
        have harith : start + listenElapsed env 0 j - start
            = listenElapsed env 0 j := by ring
        rw [harith]
        exact this)
  · intro info h
    rcases listenAllLoop_mem env timeout aF start fuel 0 start [] info h with hm | hex
    · simp at hm
    · exact hex
  · intro hnone
    exact listenAllLoop_no_accept env timeout aF start hnone fuel 0 start []

/-- Witness for C8: a malformed first datagram is skipped and the
well-formed second datagram is returned. -/
theorem listen_ignores_malformed_witness :
    (listen
        { events := fun i =>
            if i = 0 then .datagram (some (.jstr "junk")) "10.0.0.9"
            else if i = 1 then
              .datagram
                (some (.jobj [("app", .jstr "flow-editor"), ("port", .jint 51321)]))
                "10.0.0.5"
            else .sockTimeout
          eventTime := fun _ => 1 }
        30 none none 0 5).outcome
      = .found { app := "flow-editor", host := "10.0.0.5", port := 51321 } := by
  have h := listen_ignores_malformed
    { events := fun i =>
        if i = 0 then .datagram (some (.jstr "junk")) "10.0.0.9"
        else if i = 1 then
          .datagram
            (some (.jobj [("app", .jstr "flow-editor"), ("port", .jint 51321)]))
            "10.0.0.5"
        else .sockTimeout
      eventTime := fun _ => 1 }
    30 none none 0 5
  apply h.2.2.1 1 { app := "flow-editor", host := "10.0.0.5", port := 51321 }
    (by omega)
    (fun j hj => by
      have hj0 : j = 0 := by omega
      subst hj0
      rfl)
    rfl
    (fun j hj => by interval_cases j <;> norm_num [listenElapsed])

/-- C9 (amended): an accepted broadcast's endpoint takes its host from the
datagram sender and its port verbatim from the datagram port field (as a
Python int, booleans included); positivity is not enforced, so port > 0
holds exactly when the broadcast declared a positive port. -/
theorem parse_port_passthrough (datagram : Option JValue) (host : String)
    (info : AppInfo) (h : parseBroadcast datagram host = some info) :
    info.host = host
    ∧ ∃ fields, datagram = some (.jobj fields)
      ∧ ∃ v, dictGet fields "port" = some v ∧ asPyInt v = some info.port := by
  rcases datagram with _ | m
  · simp [parseBroadcast] at h
  · rcases m with _ | b | n | q | s | xs | fields
    case jobj =>
      rcases happ : dictGet fields "app" with _ | av
      · simp [parseBroadcast, happ] at h
      · by_cases hT : jTruthy av
        · rcases hport : dictGet fields "port" with _ | pv
          · simp [parseBroadcast, happ, hport, hT] at h
          · rcases hpi : asPyInt pv with _ | pn
            · simp [parseBroadcast, happ, hport, hpi, hT] at h
            · simp [parseBroadcast, happ, hport, hpi, hT] at h
              refine ⟨?_, fields, rfl, pv, hport, ?_⟩
              · rw [← h]
              · rw [hpi, ← h]
        · simp [parseBroadcast, happ, hT] at h
    all_goals simp [parseBroadcast] at h

/-- Counterexample to C9 as stated: a broadcast declaring port 0 is
accepted by _parse_broadcast and yields an endpoint whose port is 0, which
is not strictly positive. -/
theorem parse_port_zero_counterexample :
    Option.map AppInfo.port
        (parseBroadcast
          (some (.jobj [("app", .jstr "flow-editor"), ("port", .jint 0)]))
          "10.0.0.5")
      = some 0
    ∧ ¬ ((0 : Int) > 0) := by
  exact ⟨rfl, by norm_num⟩

/-- Witness for C9 (amended) on a well-formed broadcast declaring
port 51321. -/
theorem parse_port_passthrough_witness :
    ({ app := "flow-editor", host := "10.0.0.5", port := 51321 } : AppInfo).host
      = "10.0.0.5"
    ∧ ∃ fields,
        (some (.jobj [("app", .jstr "flow-editor"), ("port", .jint 51321)])
          : Option JValue) = some (.jobj fields)
        ∧ ∃ v, dictGet fields "port" = some v
            ∧ asPyInt v
              = some ({ app := "flow-editor", host := "10.0.0.5",
                        port := 51321 } : AppInfo).port :=
  parse_port_passthrough
    (some (.jobj [("app", .jstr "flow-editor"), ("port", .jint 51321)]))
    "10.0.0.5"
    { app := "flow-editor", host := "10.0.0.5", port := 51321 }
    rfl

end E2E
